import Mathlib

/-!
Shallow embedding of the currency-conversion and quote-caching module
(`src/lib/currency.ts` together with its constants in `src/lib/constants.ts`)
of the TuFinanza personal-finance application, and proofs of the
specification's claims about it.

JavaScript numbers are embedded as exact rationals (`ℚ`); timestamps
(`Date.getTime()` values, milliseconds) as integers (`ℤ`); strings as
`List Char` where character-level processing matters.  `Math.random()`
calls are embedded as explicit rational parameters in `[0, 1)`.
-/

namespace TuFinanza

/-- The closed set of supported currency codes (`Currency` in `types.ts`). -/
inductive Currency where
  | ARS | USD | USDT | COP | MXN | CLP | PEN | UYU | BRL | EUR | GBP
deriving DecidableEq, Repr, Fintype

open Currency

/-- Table `USD_EXCHANGE_RATES` from `constants.ts`: 1 unit of the currency in USD. -/
def USD_EXCHANGE_RATES : Currency → ℚ
  | USD  => 1
  | USDT => 1
  | ARS  => 11 / 10000
  | COP  => 25 / 100000
  | MXN  => 59 / 1000
  | CLP  => 11 / 10000
  | PEN  => 27 / 100
  | UYU  => 26 / 1000
  | BRL  => 20 / 100
  | EUR  => 110 / 100
  | GBP  => 127 / 100

/-- Constant `QUOTE_CACHE_DURATION` from `constants.ts`: one hour in milliseconds. -/
def QUOTE_CACHE_DURATION : ℤ := 60 * 60 * 1000

/-- Constant `USDT_PRICE_RANGE` from `constants.ts`. -/
structure PriceRange where
  min : ℚ
  max : ℚ
  base : ℚ

def USDT_PRICE_RANGE : PriceRange := { min := 1180, max := 1220, base := 1200 }

/-- Function `convertToUSD` from `currency.ts`.  The JS code falls back to 1:1 when the
looked-up rate is falsy (`if (!rate)`); a rational rate is falsy exactly when
it is `0`, which never occurs in the static table. -/
def convertToUSD (amount : ℚ) (fromCurrency : Currency) : ℚ :=
  if fromCurrency = USD then amount
  else
    let rate := USD_EXCHANGE_RATES fromCurrency
    if rate = 0 then amount else amount * rate

/-- Function `convertFromUSD` from `currency.ts`. -/
def convertFromUSD (usdAmount : ℚ) (toCurrency : Currency) : ℚ :=
  if toCurrency = USD then usdAmount
  else
    let rate := USD_EXCHANGE_RATES toCurrency
    if rate = 0 then usdAmount else usdAmount / rate

/-- Function `convertCurrency` from `currency.ts`: identity on equal currencies,
otherwise the USD pivot. -/
def convertCurrency (amount : ℚ) (fromCurrency toCurrency : Currency) : ℚ :=
  if fromCurrency = toCurrency then amount
  else convertFromUSD (convertToUSD amount fromCurrency) toCurrency

/-- Function `getExchangeRate` from `currency.ts`.  The `|| 1` fallbacks on the two
lookups are embedded as `if · = 0 then 1`. -/
def getExchangeRate (f t : Currency) : ℚ :=
  if f = t then 1
  else
    let fromToUSD := if USD_EXCHANGE_RATES f = 0 then 1 else USD_EXCHANGE_RATES f
    let usdToTarget := 1 / (if USD_EXCHANGE_RATES t = 0 then 1 else USD_EXCHANGE_RATES t)
    fromToUSD * usdToTarget

/-- Every static exchange rate is strictly positive. -/
theorem USD_EXCHANGE_RATES_pos (c : Currency) : 0 < USD_EXCHANGE_RATES c := by
  cases c <;> norm_num [USD_EXCHANGE_RATES]

theorem USD_EXCHANGE_RATES_ne_zero (c : Currency) : USD_EXCHANGE_RATES c ≠ 0 :=
  ne_of_gt (USD_EXCHANGE_RATES_pos c)

/-- The USD guard in `convertToUSD` is redundant over the static table:
the function always multiplies by the rate. -/
theorem convertToUSD_eq (amount : ℚ) (c : Currency) :
    convertToUSD amount c = amount * USD_EXCHANGE_RATES c := by
  cases c <;> simp [convertToUSD, USD_EXCHANGE_RATES]

theorem convertFromUSD_eq (amount : ℚ) (c : Currency) :
    convertFromUSD amount c = amount / USD_EXCHANGE_RATES c := by
  cases c <;> simp [convertFromUSD, USD_EXCHANGE_RATES]

/-- A JavaScript `number` argument: either `NaN` or a finite value,
embedded as an exact rational. -/
inductive JSNumber where
  | nan
  | num (val : ℚ)
deriving DecidableEq, Repr

/-- The `{ isValid, error? }` result of `validateAmount`. -/
structure ValidationResult where
  isValid : Bool
  error : Option String
deriving DecidableEq, Repr

/-- Function `validateAmount` from `currency.ts`.  The JS code tests
`isNaN(amount) || amount < 0` first, then `=== 0`, then `> 999999999`. -/
def validateAmount : JSNumber → ValidationResult
  | .nan => ⟨false, some "El monto debe ser un número positivo"⟩
  | .num a =>
    if a < 0 then ⟨false, some "El monto debe ser un número positivo"⟩
    else if a = 0 then ⟨false, some "El monto debe ser mayor a cero"⟩
    else if a > 999999999 then ⟨false, some "El monto es demasiado grande"⟩
    else ⟨true, none⟩

/-- Structure `USDTQuote` from `types.ts`: the ARS-per-USDT price, the creation
timestamp (in milliseconds, `Date.getTime()`), and the source tag. -/
structure USDTQuote where
  price : ℚ
  timestamp : ℤ
  source : String
deriving DecidableEq, Repr

/-- Function `generateUSDTQuote` from `currency.ts`.  `now` is the current clock
value; `r` is the value drawn from `Math.random()` (in `[0, 1)`).
`Math.round x` is `⌊x + 1/2⌋`, which is Mathlib's `round` on `ℚ`. -/
def generateUSDTQuote (now : ℤ) (r : ℚ) : USDTQuote :=
  let fluctuation := (r - 1/2) * 40
  let price := (round ((USDT_PRICE_RANGE.base + fluctuation) * 100) : ℚ) / 100
  { price := price, timestamp := now, source := "simulation" }

/-- Structure `ExchangeRates` from `types.ts`. -/
structure ExchangeRates where
  base : String
  rates : Currency → ℚ
  timestamp : ℤ
  source : String

/-- Function `generateExchangeRates` from `currency.ts`: starts from a copy of the
static table and overwrites every non-USD entry with a ±1% jitter.  `rnd c`
is the `Math.random()` value drawn for currency `c` (the JS loop draws one
independent value per key). -/
def generateExchangeRates (now : ℤ) (rnd : Currency → ℚ) : ExchangeRates :=
  { base := "USD"
    rates := fun c =>
      if c = USD then USD_EXCHANGE_RATES c
      else USD_EXCHANGE_RATES c * (1 + (rnd c - 1/2) * (2/100))
    timestamp := now
    source := "simulation" }

/-- Function `shouldUpdateQuotes` from `currency.ts`.  `now` is the clock read inside
the function; `lastUpdate = none` embeds the `null` argument. -/
def shouldUpdateQuotes (now : ℤ) (lastUpdate : Option ℤ) : Bool :=
  match lastUpdate with
  | none => true
  | some t => decide (now - t ≥ QUOTE_CACHE_DURATION)

/-- What the `localStorage` key for the USDT quote may hold: a serialized
quote that `JSON.parse` deserializes back (`good`), or a string on which
`JSON.parse` throws (`bad`, recovered by the `catch` into `null`). -/
inductive StoredVal where
  | good (q : USDTQuote)
  | bad
deriving DecidableEq, Repr

/-- The ambient world of the quote-caching functions: the cache slot
(`none` = key absent), the current clock, the next `Math.random()` value,
and whether `localStorage.setItem` throws (quota exceeded etc.). -/
structure World where
  cache : Option StoredVal
  now : ℤ
  rnd : ℚ
  writeFails : Bool
deriving DecidableEq, Repr

/-- Function `getCachedUSDTQuote` from `currency.ts`: `null` when the key is absent,
when `JSON.parse` throws (caught and logged), or when the stored quote is
stale per `shouldUpdateQuotes`; otherwise the stored quote unchanged. -/
def getCachedUSDTQuote (w : World) : Option USDTQuote :=
  match w.cache with
  | none => none
  | some .bad => none
  | some (.good q) =>
    if shouldUpdateQuotes w.now (some q.timestamp) then none else some q

/-- Function `saveUSDTQuoteToCache` from `currency.ts`: writes the serialized quote;
a thrown write error is caught and logged, leaving the cache unchanged. -/
def saveUSDTQuoteToCache (w : World) (q : USDTQuote) : World :=
  if w.writeFails then w else { w with cache := some (.good q) }

/-- Function `getCurrentUSDTQuote` from `currency.ts`: the returned quote paired with
the resulting world state. -/
def getCurrentUSDTQuote (w : World) : USDTQuote × World :=
  match getCachedUSDTQuote w with
  | some cached => (cached, w)
  | none =>
    let newQuote := generateUSDTQuote w.now w.rnd
    (newQuote, saveUSDTQuoteToCache w newQuote)

/-- The character class `[$€£S\/R\s]` stripped by `parseNumber`'s first
`replace`: the symbols of the supported currencies and whitespace. -/
def isStrippedChar (c : Char) : Bool :=
  c = '$' || c = '€' || c = '£' || c = 'S' || c = '/' || c = 'R' || c.isWhitespace

/-- Model of `String.prototype.lastIndexOf` for a single character, on the character
list of the string: `some i` for the greatest index holding `ch`, `none`
for JavaScript's `-1`. -/
def lastIndexOf (ch : Char) : List Char → Option ℕ
  | [] => none
  | c :: cs =>
    match lastIndexOf ch cs with
    | some i => some (i + 1)
    | none => if c = ch then some 0 else none

/-- An `Option ℕ` index as the JavaScript integer (`-1` for absence), for
the `lastCommaIndex > lastDotIndex` comparison. -/
def idxToInt : Option ℕ → ℤ
  | none => -1
  | some i => (i : ℤ)

/-- Model of `String.prototype.replace` with a one-character string pattern, which a string pattern replaces only
the first occurrence. -/
def replaceFirst (pat repl : Char) : List Char → List Char
  | [] => []
  | c :: cs => if c = pat then repl :: cs else c :: replaceFirst pat repl cs

/-- Value of a digit run, most significant first. -/
def digitsNat (l : List Char) : ℕ :=
  l.foldl (fun acc c => acc * 10 + (c.toNat - '0'.toNat)) 0

/-- Strip an optional leading sign, returning the sign as `±1`. -/
def splitSign (l : List Char) : ℤ × List Char :=
  if l.head? = some '-' then (-1, l.tail)
  else if l.head? = some '+' then (1, l.tail)
  else (1, l)

/-- Model of JavaScript `parseFloat` over exact rationals: parse the longest
prefix of the form `[+-]? digits? (. digits?)? ([eE] [+-]? digits)?`
containing at least one mantissa digit; `none` embeds `NaN`.
(The `Infinity` literal has no rational value and is not modelled.) -/
def parseFloatQ (l : List Char) : Option ℚ :=
  let s := splitSign l
  let intPart := s.2.takeWhile (·.isDigit)
  let afterInt := s.2.dropWhile (·.isDigit)
  let fracPart :=
    if afterInt.head? = some '.' then afterInt.tail.takeWhile (·.isDigit) else []
  let afterFrac :=
    if afterInt.head? = some '.' then afterInt.tail.dropWhile (·.isDigit) else afterInt
  if intPart.isEmpty && fracPart.isEmpty then none
  else
    let mantissa : ℚ :=
      (digitsNat intPart : ℚ) + (digitsNat fracPart : ℚ) / (10 : ℚ) ^ fracPart.length
    let exp : ℤ :=
      if afterFrac.head? = some 'e' ∨ afterFrac.head? = some 'E' then
        let es := splitSign afterFrac.tail
        let expDigits := es.2.takeWhile (·.isDigit)
        if expDigits.isEmpty then 0 else es.1 * (digitsNat expDigits : ℤ)
      else 0
    some ((s.1 : ℚ) * mantissa * (10 : ℚ) ^ exp)

/-- The locale-disambiguation step of `parseNumber`, acting on the already
symbol-stripped character list: exactly the `if`/`else` ladder of the JS
code between the two `lastIndexOf` calls and the final `parseFloat`. -/
def disambiguate (cleaned : List Char) : List Char :=
  let lastDotIndex := lastIndexOf '.' cleaned
  let lastCommaIndex := lastIndexOf ',' cleaned
  if idxToInt lastCommaIndex > idxToInt lastDotIndex then
    replaceFirst ',' '.' (cleaned.filter (· ≠ '.'))
  else
    match lastDotIndex with
    | none => cleaned
    | some i =>
      let afterDot := cleaned.drop (i + 1)
      if afterDot.length ≤ 2 then
        ((cleaned.take i).filter (· ≠ '.')) ++ '.' :: afterDot
      else
        cleaned.filter (· ≠ '.')

/-- Function `parseNumber` from `currency.ts`: strip symbols and whitespace,
disambiguate the decimal separator, `parseFloat`, and map `NaN` to `0`. -/
def parseNumber (input : String) : ℚ :=
  let cleaned := input.data.filter (fun c => !isStrippedChar c)
  match parseFloatQ (disambiguate cleaned) with
  | none => 0
  | some q => q

/-- On distinct currencies the conversion is multiplication by the source
rate followed by division by the target rate. -/
theorem convertCurrency_eq (x : ℚ) (a b : Currency) (h : a ≠ b) :
    convertCurrency x a b = x * USD_EXCHANGE_RATES a / USD_EXCHANGE_RATES b := by
  simp [convertCurrency, h, convertToUSD_eq, convertFromUSD_eq]

/-- On distinct currencies `getExchangeRate` is the ratio of the two static
rates (the `|| 1` fallbacks never fire). -/
theorem getExchangeRate_eq (f t : Currency) (h : f ≠ t) :
    getExchangeRate f t = USD_EXCHANGE_RATES f * (1 / USD_EXCHANGE_RATES t) := by
  simp [getExchangeRate, h, USD_EXCHANGE_RATES_ne_zero]

/-- C5: for all supported currency pairs `(A, B)` and every amount `x`,
`convertCurrency (convertCurrency x A B) B A = x`; over the exact-rational
embedding with the positive static rate table the round trip is exact. -/
theorem convertCurrency_roundTrip (x : ℚ) (a b : Currency) :
    convertCurrency (convertCurrency x a b) b a = x := by
  by_cases h : a = b
  · subst h; simp [convertCurrency]
  · have ha := USD_EXCHANGE_RATES_ne_zero a
    have hb := USD_EXCHANGE_RATES_ne_zero b
    rw [convertCurrency_eq x a b h, convertCurrency_eq _ b a (Ne.symm h)]
    field_simp

/-- C6: `convertCurrency x C C = x` exactly for every currency `C`, and for
`f ≠ t` the conversion is the USD pivot
`convertFromUSD (convertToUSD x f) t`. -/
theorem convertCurrency_identity_and_pivot (x : ℚ) (f t : Currency) (h : f ≠ t) :
    convertCurrency x f f = x ∧
    convertCurrency x f t = convertFromUSD (convertToUSD x f) t := by
  constructor
  · simp [convertCurrency]
  · simp [convertCurrency, h]

theorem convertCurrency_identity_and_pivot_witness :
    convertCurrency 5 ARS ARS = 5 ∧
    convertCurrency 5 ARS EUR = convertFromUSD (convertToUSD 5 ARS) EUR :=
  convertCurrency_identity_and_pivot 5 ARS EUR (by decide)

/-- C8: `getExchangeRate f f = 1`, and for `f ≠ t` the rate is the USD-pivot
product `USD_EXCHANGE_RATES f * (1 / USD_EXCHANGE_RATES t)`. -/
theorem getExchangeRate_spec (f t : Currency) (h : f ≠ t) :
    getExchangeRate f f = 1 ∧
    getExchangeRate f t = USD_EXCHANGE_RATES f * (1 / USD_EXCHANGE_RATES t) := by
  exact ⟨by simp [getExchangeRate], getExchangeRate_eq f t h⟩

theorem getExchangeRate_spec_witness :
    getExchangeRate ARS ARS = 1 ∧
    getExchangeRate ARS EUR = USD_EXCHANGE_RATES ARS * (1 / USD_EXCHANGE_RATES EUR) :=
  getExchangeRate_spec ARS EUR (by decide)

/-- C10: forward and reverse pivot rates are mutual reciprocals over exact
arithmetic, and every pivot rate is strictly positive. -/
theorem getExchangeRate_reciprocal_pos (a b : Currency) :
    getExchangeRate a b * getExchangeRate b a = 1 ∧ 0 < getExchangeRate a b := by
  by_cases h : a = b
  · subst h; simp [getExchangeRate]
  · have ha := USD_EXCHANGE_RATES_ne_zero a
    have hb := USD_EXCHANGE_RATES_ne_zero b
    rw [getExchangeRate_eq a b h, getExchangeRate_eq b a (Ne.symm h)]
    constructor
    · field_simp
    · have ha := USD_EXCHANGE_RATES_pos a
      have hb := USD_EXCHANGE_RATES_pos b
      positivity

/-- C4: `shouldUpdateQuotes` is true exactly on a missing timestamp or an
age of at least one hour (3 600 000 ms); with the three stated instances. -/
theorem shouldUpdateQuotes_spec (now : ℤ) (lastUpdate : Option ℤ) :
    (shouldUpdateQuotes now lastUpdate = true ↔
      lastUpdate = none ∨ ∃ t, lastUpdate = some t ∧ now - t ≥ 3600000) ∧
    shouldUpdateQuotes now none = true ∧
    shouldUpdateQuotes now (some now) = false ∧
    shouldUpdateQuotes now (some (now - 61 * 60 * 1000)) = true := by
  refine ⟨?_, rfl, ?_, ?_⟩
  · cases lastUpdate with
    | none => simp [shouldUpdateQuotes]
    | some t => simp [shouldUpdateQuotes, QUOTE_CACHE_DURATION]
  · simp [shouldUpdateQuotes, QUOTE_CACHE_DURATION]
  · simp only [shouldUpdateQuotes, QUOTE_CACHE_DURATION, decide_eq_true_eq]
    omega

/-- C7: `validateAmount` rejects exactly the not-a-number, negative, zero,
and over-999 999 999 inputs, with the stated reasons on the stated
examples. -/
theorem validateAmount_spec (x : JSNumber) :
    ((validateAmount x).isValid = false ↔
      x = JSNumber.nan ∨
        ∃ a, x = JSNumber.num a ∧ (a < 0 ∨ a = 0 ∨ a > 999999999)) ∧
    validateAmount (JSNumber.num 0) =
      ⟨false, some "El monto debe ser mayor a cero"⟩ ∧
    (validateAmount (JSNumber.num (-5))).isValid = false ∧
    (validateAmount (JSNumber.num 1000000000)).isValid = false ∧
    (validateAmount (JSNumber.num 100)).isValid = true := by
  refine ⟨?_, by decide, by decide, by decide, by decide⟩
  cases x with
  | nan => simp [validateAmount]
  | num a =>
    simp only [validateAmount]
    split_ifs with h1 h2 h3 <;>
      simp_all [JSNumber.num.injEq]

/-- C3: for every random draw `r ∈ [0, 1)` the generated USDT price lies in
`[1180, 1220]`, equals `round ((1200 + (r − 1/2) * 40) * 100) / 100`, and
is an integer number of hundredths. -/
theorem generateUSDTQuote_price_spec (now : ℤ) (r : ℚ) (h0 : 0 ≤ r) (h1 : r < 1) :
    1180 ≤ (generateUSDTQuote now r).price ∧
    (generateUSDTQuote now r).price ≤ 1220 ∧
    (generateUSDTQuote now r).price =
      (round ((1200 + (r - 1/2) * 40) * 100) : ℚ) / 100 ∧
    ∃ n : ℤ, (generateUSDTQuote now r).price = (n : ℚ) / 100 := by
  have hprice : (generateUSDTQuote now r).price =
      (round ((1200 + (r - 1/2) * 40) * 100) : ℚ) / 100 := rfl
  have hlo : (118000 : ℤ) ≤ round ((1200 + (r - 1/2) * 40) * 100) := by
    rw [round_eq, Int.le_floor]
    push_cast
    linarith
  have hhi : round ((1200 + (r - 1/2) * 40) * 100) ≤ (122000 : ℤ) := by
    rw [round_eq]
    have : ⌊(1200 + (r - 1/2) * 40) * 100 + 1/2⌋ < (122001 : ℤ) := by
      rw [Int.floor_lt]
      push_cast
      linarith
    omega
  refine ⟨?_, ?_, hprice, ⟨round ((1200 + (r - 1/2) * 40) * 100), hprice⟩⟩
  · rw [hprice, le_div_iff₀ (by norm_num : (0:ℚ) < 100)]
    exact_mod_cast le_trans (by norm_num) (Int.cast_le.mpr hlo)
  · rw [hprice, div_le_iff₀ (by norm_num : (0:ℚ) < 100)]
    calc ((round ((1200 + (r - 1/2) * 40) * 100) : ℤ) : ℚ)
        ≤ ((122000 : ℤ) : ℚ) := Int.cast_le.mpr hhi
      _ = 1220 * 100 := by norm_num

theorem generateUSDTQuote_price_spec_witness :
    1180 ≤ (generateUSDTQuote 0 (1/2)).price ∧
    (generateUSDTQuote 0 (1/2)).price ≤ 1220 :=
  ⟨(generateUSDTQuote_price_spec 0 (1/2) (by norm_num) (by norm_num)).1,
   (generateUSDTQuote_price_spec 0 (1/2) (by norm_num) (by norm_num)).2.1⟩

/-- C9: for any independent random draws in `[0, 1)`, the generated table
maps USD to exactly 1, carries base field `"USD"`, and maps every non-USD
currency to a positive rate within ±1% of its static base value. -/
theorem generateExchangeRates_spec (now : ℤ) (rnd : Currency → ℚ)
    (h : ∀ c, 0 ≤ rnd c ∧ rnd c < 1) :
    (generateExchangeRates now rnd).rates USD = 1 ∧
    (generateExchangeRates now rnd).base = "USD" ∧
    ∀ c, c ≠ USD →
      |(generateExchangeRates now rnd).rates c - USD_EXCHANGE_RATES c| ≤
        USD_EXCHANGE_RATES c / 100 ∧
      0 < (generateExchangeRates now rnd).rates c := by
  refine ⟨by simp [generateExchangeRates, USD_EXCHANGE_RATES], rfl, ?_⟩
  intro c hc
  obtain ⟨hr0, hr1⟩ := h c
  have hb := USD_EXCHANGE_RATES_pos c
  simp only [generateExchangeRates, if_neg hc]
  constructor
  · rw [abs_le]
    constructor <;> nlinarith
  · nlinarith

theorem generateExchangeRates_spec_witness :
    (generateExchangeRates 0 (fun _ => 0)).rates USD = 1 ∧
    (generateExchangeRates 0 (fun _ => 0)).base = "USD" ∧
    0 < (generateExchangeRates 0 (fun _ => 0)).rates ARS :=
  ⟨(generateExchangeRates_spec 0 (fun _ => 0) (fun _ => by norm_num)).1,
   (generateExchangeRates_spec 0 (fun _ => 0) (fun _ => by norm_num)).2.1,
   ((generateExchangeRates_spec 0 (fun _ => 0) (fun _ => by norm_num)).2.2
      ARS (by decide)).2⟩

/-- C2: `getCurrentUSDTQuote` always returns a quote.  A cached quote is
returned (with the world unchanged) exactly when the stored value parses
and its age is below one hour; otherwise — key absent, unparseable stored
value, or stale quote — the freshly generated quote is returned, it is
written back when the write succeeds, and a write failure leaves the cache
unchanged without affecting the returned quote. -/
theorem getCurrentUSDTQuote_spec (w : World) :
    (∀ q, getCachedUSDTQuote w = some q ↔
      w.cache = some (StoredVal.good q) ∧
        w.now - q.timestamp < QUOTE_CACHE_DURATION) ∧
    (∀ q, getCachedUSDTQuote w = some q → getCurrentUSDTQuote w = (q, w)) ∧
    (getCachedUSDTQuote w = none →
      (getCurrentUSDTQuote w).1 = generateUSDTQuote w.now w.rnd ∧
      (w.writeFails = false →
        (getCurrentUSDTQuote w).2 =
          { w with cache := some (StoredVal.good (generateUSDTQuote w.now w.rnd)) }) ∧
      (w.writeFails = true → (getCurrentUSDTQuote w).2 = w)) := by
  refine ⟨?_, ?_, ?_⟩
  · intro q
    match hw : w.cache with
    | none => simp [getCachedUSDTQuote, hw]
    | some .bad => simp [getCachedUSDTQuote, hw]
    | some (.good q') =>
      simp only [getCachedUSDTQuote, hw, shouldUpdateQuotes, decide_eq_true_eq,
        Option.some.injEq, StoredVal.good.injEq]
      split_ifs with hstale
      · constructor
        · intro hq
          exact absurd hq (by simp)
        · rintro ⟨rfl, hage⟩
          exact absurd hstale (by omega)
      · constructor
        · intro hq
          obtain rfl : q' = q := Option.some.inj hq
          exact ⟨rfl, by omega⟩
        · rintro ⟨rfl, _⟩
          rfl
  · intro q hq
    simp [getCurrentUSDTQuote, hq]
  · intro hq
    refine ⟨by simp [getCurrentUSDTQuote, hq], ?_, ?_⟩
    · intro hwf
      simp [getCurrentUSDTQuote, hq, saveUSDTQuoteToCache, hwf]
    · intro hwf
      simp [getCurrentUSDTQuote, hq, saveUSDTQuoteToCache, hwf]

theorem getCurrentUSDTQuote_spec_witness :
    (getCurrentUSDTQuote ⟨some StoredVal.bad, 0, 1/2, true⟩).1 =
      generateUSDTQuote 0 (1/2) ∧
    (getCurrentUSDTQuote ⟨some StoredVal.bad, 0, 1/2, true⟩).2 =
      ⟨some StoredVal.bad, 0, 1/2, true⟩ :=
  ⟨((getCurrentUSDTQuote_spec ⟨some StoredVal.bad, 0, 1/2, true⟩).2.2 rfl).1,
   ((getCurrentUSDTQuote_spec ⟨some StoredVal.bad, 0, 1/2, true⟩).2.2 rfl).2.2 rfl⟩

/-- C1: evaluation of `parseNumber` on the three inputs named by the
specification.  The European-style input and the three-trailing-digit input
parse as specified, but `parseNumber "1,234.56" = 1`, not `1234.56`: in the
dot-decimal branch the code removes the other periods yet never removes the
comma thousands separators, so `parseFloat` stops at the first comma. -/
theorem parseNumber_at_spec_examples :
    parseNumber "1,234.56" = 1 ∧
    parseNumber "1.234,56" = 123456 / 100 ∧
    parseNumber "1.234" = 1234 := by
  refine ⟨?_, ?_, ?_⟩
  · have hd : disambiguate (List.filter (fun c => !isStrippedChar c) "1,234.56".data) =
        ['1', ',', '2', '3', '4', '.', '5', '6'] := by decide
    simp only [parseNumber, hd]
    simp +decide [parseFloatQ, splitSign, digitsNat]
  · have hd : disambiguate (List.filter (fun c => !isStrippedChar c) "1.234,56".data) =
        ['1', '2', '3', '4', '.', '5', '6'] := by decide
    simp only [parseNumber, hd]
    simp +decide [parseFloatQ, splitSign, digitsNat]
    norm_num
  · have hd : disambiguate (List.filter (fun c => !isStrippedChar c) "1.234".data) =
        ['1', '2', '3', '4'] := by decide
    simp only [parseNumber, hd]
    simp +decide [parseFloatQ, splitSign, digitsNat]

end TuFinanza
